/-
Verification of `autopilot/transform/timeseries.py` (streaming IIR filter
wrapper and linear Kalman filter) against its natural-language specification.

Shallow embedding conventions:
* NumPy column vectors / matrices become `Matrix (Fin n) (Fin 1) ℚ` /
  `Matrix (Fin n) (Fin m) ℚ` (exact rational arithmetic in place of floats;
  the float-specific `** .5` of the `alpha` property is modelled over `ℝ`).
* Python `None` becomes `Option.none`; a raised exception becomes
  `Except.error` carrying a `PyErr`.
* Methods that mutate `self` become functions `KState → ... → KState`
  (or `Except PyErr KState` when the body can raise).
-/
import Mathlib

namespace Timeseries

/-- Python exceptions that the embedded code can raise. -/
inductive PyErr where
  /-- `NameError`: a free name was not found in the module or builtin scope. -/
  | nameError (n : String)
  /-- `AttributeError`: attribute lookup on a module/object failed. -/
  | attributeError (n : String)
  /-- `ValueError`, with the message. -/
  | valueError (msg : String)
  /-- `numpy.linalg.LinAlgError`, raised by `np.linalg.inv` on a singular matrix. -/
  | linAlgError
  deriving DecidableEq, Repr

/-- The names bound at the top level of the module `timeseries.py`: its five
imports (`deque` from collections, `Transform` from
autopilot.transform.transforms, `signal` from scipy, numpy as `np`, and
`copy`/`deepcopy` from copy) and the two classes it defines.  The free
names looked up below (`zeros`, `dot`) are not Python builtins, so builtins
are irrelevant to those lookups and are omitted. -/
def moduleScope : List String :=
  ["deque", "Transform", "signal", "np", "copy", "deepcopy", "Filter_IIR", "Kalman"]

/-- Evaluating a bare (free) name in the module: succeeds exactly when the name
is bound in `moduleScope`, otherwise raises `NameError`. -/
def pyName (s : String) : Except PyErr Unit :=
  if moduleScope.contains s then .ok () else .error (.nameError s)

/-! ## Kalman filter state

One record field per attribute that `Kalman._init_arrays` assigns on `self`
(the identity `self._I` is not carried: it is set to `np.eye(dim_state)` at
initialization, documented "Do not alter this", and is written `1` at its use
sites below).  `n` = `dim_state`, `m` = `dim_measurement`, `c` = `dim_control`. -/

structure KState (n m c : ℕ) where
  x_state : Matrix (Fin n) (Fin 1) ℚ
  P_cov : Matrix (Fin n) (Fin n) ℚ
  Q_proc_var : Matrix (Fin n) (Fin n) ℚ
  B_control : Option (Matrix (Fin n) (Fin c) ℚ)
  F_state_trans : Matrix (Fin n) (Fin n) ℚ
  H_measure : Matrix (Fin m) (Fin n) ℚ
  R_measure_var : Matrix (Fin m) (Fin m) ℚ
  _alpha_sq : ℚ
  M_proc_measure_xcor : Matrix (Fin n) (Fin m) ℚ
  z_measure : Option (Matrix (Fin m) (Fin 1) ℚ)
  K : Matrix (Fin n) (Fin m) ℚ
  y : Matrix (Fin m) (Fin 1) ℚ
  S : Matrix (Fin m) (Fin m) ℚ
  SI : Matrix (Fin m) (Fin m) ℚ
  x_prior : Matrix (Fin n) (Fin 1) ℚ
  P_prior : Matrix (Fin n) (Fin n) ℚ
  x_post : Matrix (Fin n) (Fin 1) ℚ
  P_post : Matrix (Fin n) (Fin n) ℚ
  _log_likelihood : Option ℚ
  _likelihood : Option ℚ
  _mahalanobis : Option ℚ
  deriving DecidableEq

/-- `Kalman._init_arrays(state=None)`.  The assignments are transcribed in
source order; the line `self.y = zeros((self.dim_measurement, 1))` evaluates
the free name `zeros`, which `moduleScope` does not bind, so the `do`-block
raises `NameError('zeros')` there and the final `.ok` is unreachable.  The
value given to `y` after that point is the zero vector the surrounding
convention (`np.zeros`) intends. -/
def initArrays (n m c : ℕ) (state : Option (Matrix (Fin n) (Fin 1) ℚ)) :
    Except PyErr (KState n m c) := do
  let x_state : Matrix (Fin n) (Fin 1) ℚ :=
    match state with
    | some st => st
    | none => 0
  let P_cov : Matrix (Fin n) (Fin n) ℚ := 1
  let Q_proc_var : Matrix (Fin n) (Fin n) ℚ := 1
  let B_control : Option (Matrix (Fin n) (Fin c) ℚ) := none
  let F_state_trans : Matrix (Fin n) (Fin n) ℚ := 1
  let H_measure : Matrix (Fin m) (Fin n) ℚ := 0
  let R_measure_var : Matrix (Fin m) (Fin m) ℚ := 1
  let alpha_sq : ℚ := 1
  let M_proc_measure_xcor : Matrix (Fin n) (Fin m) ℚ := 0
  let z_measure : Option (Matrix (Fin m) (Fin 1) ℚ) := none
  let K : Matrix (Fin n) (Fin m) ℚ := 0
  -- `self.y = zeros((self.dim_measurement, 1))` : `zeros` is a free name
  let _ ← pyName "zeros"
  let y : Matrix (Fin m) (Fin 1) ℚ := 0
  let S : Matrix (Fin m) (Fin m) ℚ := 0
  let SI : Matrix (Fin m) (Fin m) ℚ := 0
  .ok { x_state := x_state, P_cov := P_cov, Q_proc_var := Q_proc_var,
        B_control := B_control, F_state_trans := F_state_trans,
        H_measure := H_measure, R_measure_var := R_measure_var,
        _alpha_sq := alpha_sq, M_proc_measure_xcor := M_proc_measure_xcor,
        z_measure := z_measure, K := K, y := y, S := S, SI := SI,
        x_prior := x_state, P_prior := P_cov,
        x_post := x_state, P_post := P_cov,
        _log_likelihood := none, _likelihood := none, _mahalanobis := none }

/-- `self.dim_measurement`: `dim_measurement` defaults to `dim_state` when the
constructor argument is `None`. -/
def dimMeas (n : ℕ) (m : Option ℕ) : ℕ := m.getD n

/-- `Kalman.__init__(dim_state, dim_measurement=None, dim_control=0)`.
Modelled from the spec: the `Transform` base-class constructor
(`autopilot.transform.transforms`, not part of the shown sources) is treated
abstractly as having no effect on construction, per the spec's design note
("treat the base class abstractly as a stateful transform with a `process`
entry point; do not assume additional unseen lifecycle hooks").  After storing
the dimensions, `__init__` calls `self._init_arrays()`. -/
def kalmanInit (n : ℕ) (m : Option ℕ) (c : ℕ) : Except PyErr (KState n (dimMeas n m) c) :=
  initArrays n (dimMeas n m) c none

/-- C1: constructing a `Kalman` filter always raises `NameError('zeros')`. -/
theorem kalmanInit_raises_nameError (n : ℕ) (m : Option ℕ) (c : ℕ) (h : 1 ≤ n) :
    kalmanInit n m c = .error (.nameError "zeros") := by
  rfl

/-- Witness for C1 at `dim_state = 2`, `dim_measurement = None`, `dim_control = 0`. -/
theorem kalmanInit_raises_nameError_witness :
    1 ≤ 2 ∧ kalmanInit 2 none 0 = .error (.nameError "zeros") :=
  ⟨by decide, kalmanInit_raises_nameError 2 none 0 (by decide)⟩

/-! ## `Kalman.predict` -/

/-- A NumPy argument that may be either a scalar or a square matrix
(`np.isscalar` distinguishes the two in the source). -/
inductive ScalarOrMat (d : ℕ) where
  | scalar (q : ℚ)
  | mat (M : Matrix (Fin d) (Fin d) ℚ)
  deriving DecidableEq

/-- Argument resolution at the top of `predict`:
`if B is None: B = self.B_control` (the stored `B_control` may itself be
`None`). -/
def resolveB {n m c : ℕ} (s : KState n m c) (B : Option (Matrix (Fin n) (Fin c) ℚ)) :
    Option (Matrix (Fin n) (Fin c) ℚ) :=
  match B with
  | some b => some b
  | none => s.B_control

/-- `if F is None: F = self.F_state_trans`. -/
def resolveF {n m c : ℕ} (s : KState n m c) (F : Option (Matrix (Fin n) (Fin n) ℚ)) :
    Matrix (Fin n) (Fin n) ℚ :=
  F.getD s.F_state_trans

/-- `if Q is None: Q = self.Q_proc_var elif np.isscalar(Q): Q = np.eye(dim_state) * Q`. -/
def resolveQ {n m c : ℕ} (s : KState n m c) (Q : Option (ScalarOrMat n)) :
    Matrix (Fin n) (Fin n) ℚ :=
  match Q with
  | none => s.Q_proc_var
  | some (.scalar q) => q • (1 : Matrix (Fin n) (Fin n) ℚ)
  | some (.mat M) => M

/-- `Kalman.predict(u=None, B=None, F=None, Q=None)`: resolve the optional
arguments against the stored matrices, then
`x_state = F@x + B@u` if both `B` and `u` are non-`None` else `F@x`,
`P_cov = _alpha_sq * (F@P_cov)@F.T + Q`, and `np.copyto` the results into
`x_prior` / `P_prior`. -/
def predict {n m c : ℕ} (s : KState n m c)
    (u : Option (Matrix (Fin c) (Fin 1) ℚ))
    (B : Option (Matrix (Fin n) (Fin c) ℚ))
    (F : Option (Matrix (Fin n) (Fin n) ℚ))
    (Q : Option (ScalarOrMat n)) : KState n m c :=
  let B := resolveB s B
  let F := resolveF s F
  let Q := resolveQ s Q
  let x :=
    match B, u with
    | some b, some uv => F * s.x_state + b * uv
    | some _, none => F * s.x_state
    | none, _ => F * s.x_state
  let P := s._alpha_sq • (F * s.P_cov * F.transpose) + Q
  { s with x_state := x, P_cov := P, x_prior := x, P_prior := P }

/-- C2: `predict` updates `x_state` to `F·x + B·u` when both a control matrix
and a control vector are available (else `F·x`), updates `P_cov` to
`alpha² · F·P·Fᵗ + Q`, and sets `x_prior`/`P_prior` to copies of the
post-predict values, with unset arguments defaulting to the stored matrices
and a scalar `Q` expanded to `Q · identity(n)`. -/
theorem predict_spec {n m c : ℕ} (s : KState n m c)
    (u : Option (Matrix (Fin c) (Fin 1) ℚ))
    (B : Option (Matrix (Fin n) (Fin c) ℚ))
    (F : Option (Matrix (Fin n) (Fin n) ℚ))
    (Q : Option (ScalarOrMat n)) :
    (predict s u B F Q).x_state =
      (match resolveB s B, u with
       | some b, some uv => resolveF s F * s.x_state + b * uv
       | _, _ => resolveF s F * s.x_state) ∧
    (predict s u B F Q).P_cov =
      s._alpha_sq • (resolveF s F * s.P_cov * (resolveF s F).transpose) + resolveQ s Q ∧
    (predict s u B F Q).x_prior = (predict s u B F Q).x_state ∧
    (predict s u B F Q).P_prior = (predict s u B F Q).P_cov := by
  refine ⟨?_, rfl, rfl, rfl⟩
  cases hB : resolveB s B with
  | none => cases u <;> simp [predict, hB]
  | some b => cases u <;> simp [predict, hB]

/-! ## `Kalman.update` -/

/-- `np.linalg.inv` on a nonsingular rational matrix: `det⁻¹ • adjugate`, an
executable form of Mathlib's `Matrix.inv`. -/
def matInv {d : ℕ} (A : Matrix (Fin d) (Fin d) ℚ) : Matrix (Fin d) (Fin d) ℚ :=
  A.det⁻¹ • A.adjugate

theorem matInv_eq_inv {d : ℕ} (A : Matrix (Fin d) (Fin d) ℚ) : matInv A = A⁻¹ := by
  rw [Matrix.inv_def, Ring.inverse_eq_inv]
  rfl

/-- `if R is None: R = self.R_measure_var elif np.isscalar(R): R = np.eye(dim_measurement) * R`. -/
def resolveR {n m c : ℕ} (s : KState n m c) (R : Option (ScalarOrMat m)) :
    Matrix (Fin m) (Fin m) ℚ :=
  match R with
  | none => s.R_measure_var
  | some (.scalar r) => r • (1 : Matrix (Fin m) (Fin m) ℚ)
  | some (.mat M) => M

/-- `Kalman.update(z, R=None, H=None)`, transcribed in source order:
clear the cached likelihood values; if `z is None` take the sentinel path
(restore the sentinel `z_measure`, copy `x_state`/`P_cov` into
`x_post`/`P_post`, zero `y`, return); otherwise resolve `R`, and if `H is
None` evaluate `np.reshape_z` — NumPy's namespace has no attribute
`reshape_z` (it is a FilterPy helper this port did not bring along), so that
branch raises `AttributeError`.  With an explicit `H`: residual, innovation
covariance `S` (raising `LinAlgError` on a singular `S`, as `np.linalg.inv`
does), gain, posterior state, Joseph-form posterior covariance, and the
posterior snapshots.  `self._I` is the identity, written `1`.  The source
clears the three cached likelihood values before branching on `z`; since a
raised exception discards the state in this embedding, the clearing is
recorded in each returned state instead of in a separate first step. -/
def update {n m c : ℕ} (s : KState n m c) (z : Option (Matrix (Fin m) (Fin 1) ℚ))
    (R : Option (ScalarOrMat m)) (H : Option (Matrix (Fin m) (Fin n) ℚ)) :
    Except PyErr (KState n m c) :=
  match z with
  | none =>
      .ok { s with _log_likelihood := none, _likelihood := none, _mahalanobis := none,
                   z_measure := none, x_post := s.x_state, P_post := s.P_cov, y := 0 }
  | some z =>
      let R := resolveR s R
      match H with
      | none => .error (.attributeError "np.reshape_z")
      | some H =>
          let y := z - H * s.x_state
          let PHT := s.P_cov * H.transpose
          let S := H * PHT + R
          if S.det = 0 then .error .linAlgError
          else
            let SI := matInv S
            let K := PHT * SI
            let x := s.x_state + K * y
            let I_KH := 1 - K * H
            let P := I_KH * s.P_cov * I_KH.transpose + K * R * K.transpose
            .ok { s with _log_likelihood := none, _likelihood := none, _mahalanobis := none,
                         y := y, S := S, SI := SI, K := K, x_state := x, P_cov := P,
                         z_measure := some z, x_post := x, P_post := P }

/-- The update step as the specification writes it: residual `y = z − H·x`,
`S = H·P·Hᵗ + R`, gain `K = P·Hᵗ·S⁻¹`, posterior `x + K·y`, Joseph-form
covariance `(I − K·H)·P·(I − K·H)ᵗ + K·R·Kᵗ`, snapshots and cache
invalidation. -/
noncomputable def updateSpec {n m c : ℕ} (s : KState n m c)
    (z : Matrix (Fin m) (Fin 1) ℚ) (R : Matrix (Fin m) (Fin m) ℚ)
    (H : Matrix (Fin m) (Fin n) ℚ) : KState n m c :=
  let y := z - H * s.x_state
  let S := H * s.P_cov * H.transpose + R
  let SI := S⁻¹
  let K := s.P_cov * H.transpose * SI
  let x := s.x_state + K * y
  let P := (1 - K * H) * s.P_cov * (1 - K * H).transpose + K * R * K.transpose
  { s with _log_likelihood := none, _likelihood := none, _mahalanobis := none,
           y := y, S := S, SI := SI, K := K, x_state := x, P_cov := P,
           z_measure := some z, x_post := x, P_post := P }

/-- Shared unfolding lemma: on a non-sentinel measurement, an explicit `H`
and a nonsingular innovation covariance, `update` returns `updateSpec`. -/
theorem update_eq_updateSpec {n m c : ℕ} (s : KState n m c) (z : Matrix (Fin m) (Fin 1) ℚ)
    (R : Option (ScalarOrMat m)) (H : Matrix (Fin m) (Fin n) ℚ)
    (hdet : (H * s.P_cov * H.transpose + resolveR s R).det ≠ 0) :
    update s (some z) R (some H) = .ok (updateSpec s z (resolveR s R) H) := by
  have hassoc : H * (s.P_cov * H.transpose) + resolveR s R
      = H * s.P_cov * H.transpose + resolveR s R := by
    rw [Matrix.mul_assoc]
  simp only [update, updateSpec, matInv_eq_inv, hassoc]
  rw [if_neg hdet]

/-- C3: on a non-sentinel measurement with an explicit measurement matrix and
a nonsingular innovation covariance, `update` computes exactly the
specification's residual, gain, posterior state and Joseph-form posterior
covariance (with snapshots and cache invalidation). -/
theorem update_spec {n m c : ℕ} (s : KState n m c) (z : Matrix (Fin m) (Fin 1) ℚ)
    (R : Option (ScalarOrMat m)) (H : Matrix (Fin m) (Fin n) ℚ)
    (hdet : (H * s.P_cov * H.transpose + resolveR s R).det ≠ 0) :
    update s (some z) R (some H) = .ok (updateSpec s z (resolveR s R) H) :=
  update_eq_updateSpec s z R H hdet

/-- The intended `_init_arrays` state at `dim_state = dim_measurement = 1`
(the state construction would produce were the free name `zeros` bound to
`np.zeros`, per the spec's design note), used as a concrete filter state by
the witnesses below. -/
def kw1 : KState 1 1 0 :=
  { x_state := 0, P_cov := 1, Q_proc_var := 1, B_control := none,
    F_state_trans := 1, H_measure := 0, R_measure_var := 1, _alpha_sq := 1,
    M_proc_measure_xcor := 0, z_measure := none, K := 0, y := 0, S := 0,
    SI := 0, x_prior := 0, P_prior := 1, x_post := 0, P_post := 1,
    _log_likelihood := none, _likelihood := none, _mahalanobis := none }

/-- Witness for C3: at the concrete state `kw1` with `H = 1`, default `R` and
measurement `z = 1`, the innovation covariance is nonsingular and `update`
matches the specification's formulas. -/
theorem update_spec_witness :
    ((1 : Matrix (Fin 1) (Fin 1) ℚ) * kw1.P_cov * (1 : Matrix (Fin 1) (Fin 1) ℚ).transpose
        + resolveR kw1 none).det ≠ 0 ∧
    update kw1 (some 1) none (some 1) = .ok (updateSpec kw1 1 (resolveR kw1 none) 1) := by
  have hdet : ((1 : Matrix (Fin 1) (Fin 1) ℚ) * kw1.P_cov
      * (1 : Matrix (Fin 1) (Fin 1) ℚ).transpose + resolveR kw1 none).det ≠ 0 := by
    simp [kw1, resolveR, Matrix.det_fin_one, Matrix.transpose_one]
  exact ⟨hdet, update_spec kw1 1 none 1 hdet⟩

/-- C4: `update` on the "no measurement" sentinel leaves `x_state` and
`P_cov` unchanged, restores the sentinel `z_measure`, copies the current
state and covariance into `x_post`/`P_post`, zeroes the residual and returns
(only the cached likelihood values are additionally cleared). -/
theorem update_sentinel {n m c : ℕ} (s : KState n m c)
    (R : Option (ScalarOrMat m)) (H : Option (Matrix (Fin m) (Fin n) ℚ)) :
    update s none R H =
      .ok { s with _log_likelihood := none, _likelihood := none, _mahalanobis := none,
                   z_measure := none, x_post := s.x_state, P_post := s.P_cov, y := 0 } := by
  rfl

/-- C5: `update` on a real measurement with the default measurement matrix
(`H = None`) raises before any innovation computation: the branch evaluates
`np.reshape_z`, an attribute NumPy does not have. -/
theorem update_default_H_raises {n m c : ℕ} (s : KState n m c)
    (z : Matrix (Fin m) (Fin 1) ℚ) (R : Option (ScalarOrMat m)) :
    update s (some z) R none = .error (.attributeError "np.reshape_z") := by
  rfl

/-! ## Perfect, noiseless observation (C8)

With `F = I`, `Q = 0`, `alpha = 1`, `R = 0` and a measurement equal to the
state prior, `predict` indeed changes nothing, and `update` leaves `x_state`
unchanged — but the Joseph-form covariance with gain `K = P·P⁻¹ = I` sets
`P_cov` to `(I−I)·P·(I−I)ᵗ + I·0·Iᵗ = 0`: the covariance collapses to zero
instead of staying unchanged. -/

/-- Shared computation for C8: under the perfect-observation configuration
(`F_state_trans = 1`, `Q_proc_var = 0`, `alpha² = 1`, `R_measure_var = 0`,
nonsingular `P_cov`), `predict` followed by `update` on the resulting state
prior (with the measurement matrix passed explicitly as the identity, the
default-`H` path being unreachable) returns a state with `x_state` unchanged
and `P_cov = 0`. -/
theorem perfect_obs_aux {n c : ℕ} (s : KState n n c)
    (hF : s.F_state_trans = 1) (hQ : s.Q_proc_var = 0) (ha : s._alpha_sq = 1)
    (hR : s.R_measure_var = 0) (hP : s.P_cov.det ≠ 0) :
    ∃ t, update (predict s none none none none)
          (some (predict s none none none none).x_prior) none (some 1) = .ok t ∧
        t.x_state = s.x_state ∧ t.P_cov = 0 := by
  have hpx : (predict s none none none none).x_state = s.x_state := by
    cases hB : s.B_control with
    | none => simp [predict, resolveB, resolveF, hB, hF]
    | some b => simp [predict, resolveB, resolveF, hB, hF]
  have hpP : (predict s none none none none).P_cov = s.P_cov := by
    simp [predict, resolveF, resolveQ, hF, hQ, ha, Matrix.transpose_one]
  have hprior : (predict s none none none none).x_prior
      = (predict s none none none none).x_state := rfl
  have hpR : resolveR (predict s none none none none) none = 0 := hR
  set p := predict s none none none none with hp
  have hdet : ((1 : Matrix (Fin n) (Fin n) ℚ) * p.P_cov
      * (1 : Matrix (Fin n) (Fin n) ℚ).transpose + resolveR p none).det ≠ 0 := by
    rw [Matrix.one_mul, Matrix.transpose_one, Matrix.mul_one, hpR, add_zero, hpP]
    exact hP
  refine ⟨updateSpec p p.x_prior (resolveR p none) 1,
    update_eq_updateSpec p p.x_prior none 1 hdet, ?_, ?_⟩
  · simp [updateSpec, hprior, hpx]
  · have hunit : IsUnit p.P_cov.det := by
      rw [hpP]; exact isUnit_iff_ne_zero.mpr hP
    simp [updateSpec, hpR, Matrix.transpose_one, Matrix.mul_nonsing_inv p.P_cov hunit]

/-- C8 (amended): with `F = I`, `Q = 0`, `alpha = 1`, `R = 0`, an invertible
`P_cov` and the measurement matrix `I` passed explicitly (the default-`H`
path raises, see C5), running `predict` then `update` with a measurement
equal to the state prior leaves `x_state` unchanged but collapses `P_cov`
to the zero matrix — it is not a covariance no-op. -/
theorem predict_update_perfect_obs {n c : ℕ} (s : KState n n c)
    (hF : s.F_state_trans = 1) (hQ : s.Q_proc_var = 0) (ha : s._alpha_sq = 1)
    (hR : s.R_measure_var = 0) (hP : s.P_cov.det ≠ 0) :
    ∃ t, update (predict s none none none none)
          (some (predict s none none none none).x_prior) none (some 1) = .ok t ∧
        t.x_state = s.x_state ∧ t.P_cov = 0 :=
  perfect_obs_aux s hF hQ ha hR hP

/-- The concrete perfect-observation filter at `dim_state = dim_measurement
= 1`: intended fresh state with `H_measure = 1`, `Q_proc_var = 0`,
`R_measure_var = 0` (and the defaults `F = 1`, `alpha² = 1`, `P_cov = 1`). -/
def c8s : KState 1 1 0 :=
  { kw1 with H_measure := 1, Q_proc_var := 0, R_measure_var := 0 }

/-- Counterexample to C8 as stated: at `c8s`, the pre-update covariance is
`1`, and `predict` followed by `update` with the state prior as measurement
returns a state whose `P_cov` is `0 ≠ 1` — the covariance is not left
unchanged (and exactly `0` is beyond any numerical tolerance reading). -/
theorem perfect_obs_not_Pcov_noop :
    (predict c8s none none none none).P_cov = 1 ∧
    (update (predict c8s none none none none)
        (some (predict c8s none none none none).x_prior) none (some 1)).map KState.P_cov
      = .ok 0 ∧
    (0 : Matrix (Fin 1) (Fin 1) ℚ) ≠ 1 := by
  have hP : (c8s.P_cov).det ≠ 0 := by
    simp [c8s, kw1]
  obtain ⟨t, ht, -, htP⟩ := perfect_obs_aux c8s rfl rfl rfl rfl hP
  refine ⟨?_, ?_, ?_⟩
  · simp [predict, resolveB, resolveF, resolveQ, c8s, kw1, Matrix.transpose_one]
  · rw [ht]
    show Except.ok t.P_cov = Except.ok 0
    rw [htP]
  · intro h
    have := congrFun (congrFun h 0) 0
    simp [Matrix.one_apply] at this

/-- Witness for C8's amended theorem at the concrete state `c8s`. -/
theorem predict_update_perfect_obs_witness :
    (c8s.F_state_trans = 1 ∧ c8s.Q_proc_var = 0 ∧ c8s._alpha_sq = 1 ∧
      c8s.R_measure_var = 0 ∧ c8s.P_cov.det ≠ 0) ∧
    (∃ t, update (predict c8s none none none none)
          (some (predict c8s none none none none).x_prior) none (some 1) = .ok t ∧
        t.x_state = c8s.x_state ∧ t.P_cov = 0) :=
  ⟨⟨rfl, rfl, rfl, rfl, by simp [c8s, kw1]⟩,
    predict_update_perfect_obs c8s rfl rfl rfl rfl (by simp [c8s, kw1])⟩

/-! ## `Kalman.residual_of` and `Kalman.measurement_of_state` -/

/-- `Kalman.residual_of(z)`: `return z - dot(self.H_measure, self.x_prior)`.
`dot` is a free name (`moduleScope` does not bind it; the FilterPy original
had `from numpy import dot`), so the expression raises `NameError('dot')`
before the subtraction; the value after the lookup is the one the docstring
promises. -/
def residual_of {n m c : ℕ} (s : KState n m c) (z : Matrix (Fin m) (Fin 1) ℚ) :
    Except PyErr (Matrix (Fin m) (Fin 1) ℚ) := do
  let _ ← pyName "dot"
  .ok (z - s.H_measure * s.x_prior)

/-- `Kalman.measurement_of_state(x)`: `return dot(self.H_measure, x)`, with
the same free-name `dot`. -/
def measurement_of_state {n m c : ℕ} (s : KState n m c) (x : Matrix (Fin n) (Fin 1) ℚ) :
    Except PyErr (Matrix (Fin m) (Fin 1) ℚ) := do
  let _ ← pyName "dot"
  .ok (s.H_measure * x)

/-- C10: `residual_of` never returns the residual — for every filter state
and measurement it raises `NameError('dot')` (so in particular it cannot be
the promised pure function of the filter's state). -/
theorem residual_of_raises {n m c : ℕ} (s : KState n m c) (z : Matrix (Fin m) (Fin 1) ℚ) :
    residual_of s z = .error (.nameError "dot") := by
  rfl

/-! ## The `alpha` property (C9)

Python's float power `self._alpha_sq ** .5` is modelled over `ℝ` with the
real power `x ^ ((1:ℝ)/2)`; the argument of the setter is a scalar or a
non-scalar (`np.isscalar` is the test the source uses). -/

/-- An argument to the `alpha` setter: a scalar, or anything for which
`np.isscalar` is `False`. -/
inductive AlphaArg where
  | scalar (r : ℝ)
  | nonscalar

/-- The `alpha` setter:
`if not np.isscalar(value) or value < 1: raise ValueError(...)` then
`self._alpha_sq = value**2`. -/
noncomputable def alphaSet : AlphaArg → Except PyErr ℝ
  | .nonscalar => .error (.valueError "alpha must be a float greater than 1")
  | .scalar r =>
      if r < 1 then .error (.valueError "alpha must be a float greater than 1")
      else .ok (r ^ 2)

/-- The `alpha` getter: `return self._alpha_sq**.5`. -/
noncomputable def alphaGet (alpha_sq : ℝ) : ℝ := alpha_sq ^ ((1 : ℝ) / 2)

/-- C9: the `alpha` setter raises `ValueError` exactly when the value is not
a scalar or is `< 1`; for a scalar `v ≥ 1` it stores `v²`, and the getter
then returns `√(v²) = v`. -/
theorem alpha_property (a : AlphaArg) :
    (alphaSet a = .error (.valueError "alpha must be a float greater than 1") ↔
      (a = .nonscalar ∨ ∃ r, a = .scalar r ∧ r < 1)) ∧
    (∀ r : ℝ, a = .scalar r → 1 ≤ r → alphaSet a = .ok (r ^ 2) ∧ alphaGet (r ^ 2) = r) := by
  constructor
  · cases a with
    | nonscalar => simp [alphaSet]
    | scalar r =>
        by_cases h : r < 1
        · simp [alphaSet, if_pos h]
          exact h
        · simp [alphaSet, if_neg h]
          exact not_lt.mp h
  · rintro r rfl h1
    have h0 : (0 : ℝ) ≤ r := le_trans zero_le_one h1
    refine ⟨by rw [alphaSet, if_neg (not_lt.mpr h1)], ?_⟩
    rw [alphaGet]
    rw [show ((r ^ 2 : ℝ)) = r ^ ((2 : ℕ) : ℝ) from (Real.rpow_natCast r 2).symm]
    rw [← Real.rpow_mul h0]
    norm_num

/-- Witness for C9 at the scalar value `3/2` (the spec's own example: the
setter accepts `1.5`). -/
theorem alpha_property_witness :
    (1 : ℝ) ≤ 3 / 2 ∧
    alphaSet (.scalar (3 / 2)) = .ok (((3 : ℝ) / 2) ^ 2) ∧
    alphaGet (((3 : ℝ) / 2) ^ 2) = 3 / 2 :=
  ⟨by norm_num, (alpha_property (.scalar (3 / 2))).2 (3 / 2) rfl (by norm_num)⟩

/-! ## `Filter_IIR`

The streaming IIR wrapper.  `scipy.signal.iirfilter`, `scipy.signal.lfilter`
and `scipy.signal.sosfilt` are the external signal-processing collaborators
(spec §6); they are embedded from their documented interfaces:
`iirfilter(..., output=...)` returns transfer-function (`'ba'`),
pole-zero (`'zpk'`) or second-order-section (`'sos'`) coefficients and
raises `ValueError` for any other `output` string; `lfilter`/`sosfilt` are
the standard direct-form recursion and its cascaded-biquad form. -/

/-- Filter coefficients, tagged by the form `scipy.signal.iirfilter` was
asked for. -/
inductive Coefs where
  | ba (b a : List ℚ)
  | zpk (zs ps : List ℚ) (gain : ℚ)
  | sos (sections : List (List ℚ))
  deriving DecidableEq

/-- The numeric outcome of the external filter design for one fixed set of
design parameters (order, critical frequencies, band type...): the same
design reported in each of the three output forms.  `Filter_IIR` never
inspects these numbers, so they are carried opaquely. -/
structure FilterDesign where
  ba_b : List ℚ
  ba_a : List ℚ
  zpk_z : List ℚ
  zpk_p : List ℚ
  zpk_k : ℚ
  sos_secs : List (List ℚ)

/-- `scipy.signal.iirfilter(ftype=..., output=..., **kwargs)`: returns the
designed coefficients in the requested output form, raising `ValueError`
for an `output` other than `'ba'`, `'zpk'`, `'sos'` (the design parameters
in `**kwargs` are assumed valid, as the spec's claims do). -/
def iirfilter (ftype : String) (output : String) (d : FilterDesign) : Except PyErr Coefs :=
  if output = "ba" then .ok (.ba d.ba_b d.ba_a)
  else if output = "zpk" then .ok (.zpk d.zpk_z d.zpk_p d.zpk_k)
  else if output = "sos" then .ok (.sos d.sos_secs)
  else .error (.valueError (output ++ " is not a valid output form."))

/-- One output sample of `scipy.signal.lfilter` (direct-form recursion):
given coefficients `b`, `a`, the full input `x` and the outputs `ys`
produced so far, the output at index `n = ys.length` is
`(Σᵢ b i · x (n−i) − Σ_{j≥1} a j · y (n−j)) / a 0`. -/
def lfilterOut (b a x ys : List ℚ) : ℚ :=
  let n := ys.length
  ((Finset.range b.length).sum (fun i => if i ≤ n then b.getD i 0 * x.getD (n - i) 0 else 0) -
    (Finset.range a.length).sum (fun j => if 1 ≤ j ∧ j ≤ n then a.getD j 0 * ys.getD (n - j) 0 else 0))
    / a.getD 0 0

/-- `scipy.signal.lfilter(b, a, x)` on a 1-D signal. -/
def lfilter (b a : List ℚ) (x : List ℚ) : List ℚ :=
  x.foldl (fun ys _ => ys ++ [lfilterOut b a x ys]) []

/-- `scipy.signal.sosfilt(sos, x)` on a 1-D signal: cascade of biquads, each
section a row `[b0, b1, b2, a0, a1, a2]`. -/
def sosfilt (sos : List (List ℚ)) (x : List ℚ) : List ℚ :=
  sos.foldl (fun sig sec => lfilter (sec.take 3) (sec.drop 3) sig) x

/-- The `Filter_IIR` instance attributes. -/
structure IIRState where
  ftype : String
  coef_type : String
  axis : ℤ
  coefs : Coefs
  buffer : List ℚ
  maxlen : ℕ
  deriving DecidableEq

/-- `Filter_IIR.__init__(ftype="butter", buffer_size=256, coef_type='sos',
axis=0, ...)`: designs the coefficients through `scipy.signal.iirfilter`
(which is where an unrecognized `coef_type` raises) and creates the empty
bounded buffer `deque(maxlen=buffer_size)`.  Modelled from the spec: the
`Transform` base-class constructor is treated as having no effect here. -/
def filterIIRInit (ftype : String) (buffer_size : ℕ) (coef_type : String)
    (axis : ℤ) (d : FilterDesign) : Except PyErr IIRState :=
  match iirfilter ftype coef_type d with
  | .error e => .error e
  | .ok coefs =>
      .ok { ftype := ftype, coef_type := coef_type, axis := axis, coefs := coefs,
            buffer := [], maxlen := buffer_size }

/-- `deque(maxlen=m).append(x)`: append, evicting from the front so that at
most `m` elements remain. -/
def dequeAppend (m : ℕ) (buf : List ℚ) (x : ℚ) : List ℚ :=
  let b := buf ++ [x]
  b.drop (b.length - m)

/-- The value `Filter_IIR.process` returns once the buffer holds the new
sample: the final element (`[-1]`) of `lfilter`/`sosfilt` over the entire
current buffer when `coef_type` is `"ba"`/`"sos"`, and Python's implicit
`None` otherwise.  A constructed filter's `coef_type` always matches its
coefficient tag, so the mismatched tag arms (also `none`) are unreachable;
`getLast?` likewise returns `none` on the empty capacity-0 buffer, where
Python's `[-1]` would raise `IndexError`. -/
def procOut (s : IIRState) : Option ℚ :=
  if s.coef_type = "ba" then
    match s.coefs with
    | .ba b a => (lfilter b a s.buffer).getLast?
    | _ => none
  else if s.coef_type = "sos" then
    match s.coefs with
    | .sos sections => (sosfilt sections s.buffer).getLast?
    | _ => none
  else none

/-- `Filter_IIR.process(input)`: append to the buffer, then filter the whole
buffer and return the most recent filtered value. -/
def process (s : IIRState) (input : ℚ) : IIRState × Option ℚ :=
  let t := { s with buffer := dequeAppend s.maxlen s.buffer input }
  (t, procOut t)

/-- The filter state after feeding the samples `xs` one `process` call at a
time. -/
def feedState (s : IIRState) (xs : List ℚ) : IIRState :=
  xs.foldl (fun u x => (process u x).1) s

/-- The state and the value returned by the last `process` call after
feeding `xs` one call at a time (`none` when `xs` is empty). -/
def feed (s : IIRState) (xs : List ℚ) : IIRState × Option ℚ :=
  xs.foldl (fun acc x => process acc.1 x) (s, none)

/-! ### Buffer lemmas -/

theorem feedState_eq (xs : List ℚ) : ∀ s : IIRState,
    feedState s xs = { s with buffer := xs.foldl (dequeAppend s.maxlen) s.buffer } := by
  induction xs with
  | nil => intro s; rfl
  | cons x xs ih =>
      intro s
      show feedState ((process s x).1) xs = _
      rw [ih]
      rfl

theorem foldl_dequeAppend (m : ℕ) (xs : List ℚ) : ∀ buf : List ℚ, buf.length ≤ m →
    xs.foldl (dequeAppend m) buf = (buf ++ xs).drop ((buf ++ xs).length - m) := by
  induction xs with
  | nil =>
      intro buf hb
      simp only [List.foldl_nil, List.append_nil]
      rw [show buf.length - m = 0 by omega, List.drop_zero]
  | cons x xs ih =>
      intro buf hb
      rw [List.foldl_cons]
      have hlen : (dequeAppend m buf x).length ≤ m := by
        simp only [dequeAppend, List.length_drop, List.length_append, List.length_cons]
        omega
      rw [ih (dequeAppend m buf x) hlen]
      have hk : buf.length + 1 - m ≤ (buf ++ [x]).length := by
        simp only [List.length_append, List.length_cons, List.length_nil]
        omega
      calc (dequeAppend m buf x ++ xs).drop ((dequeAppend m buf x ++ xs).length - m)
          = (((buf ++ [x]).drop (buf.length + 1 - m) ++ xs)).drop
              ((((buf ++ [x]).drop (buf.length + 1 - m)).length + xs.length) - m) := by
            simp only [dequeAppend, List.length_append, List.length_cons, List.length_nil]
        _ = ((buf ++ [x]) ++ xs).drop ((buf.length + 1 - m) +
              ((((buf ++ [x]).drop (buf.length + 1 - m)).length + xs.length) - m)) := by
            rw [← List.drop_append_of_le_length hk, List.drop_drop]
        _ = (buf ++ x :: xs).drop ((buf ++ x :: xs).length - m) := by
            have harr : (buf ++ [x]) ++ xs = buf ++ x :: xs := by
              rw [List.append_assoc]; rfl
            rw [harr]
            congr 1
            simp only [List.length_drop, List.length_append, List.length_cons, List.length_nil]
            omega

theorem feed_foldl_fst (xs : List ℚ) : ∀ (t : IIRState) (o : Option ℚ),
    (xs.foldl (fun acc x => process acc.1 x) (t, o)).1 = feedState t xs := by
  induction xs with
  | nil => intro t o; rfl
  | cons x xs ih =>
      intro t o
      rw [List.foldl_cons]
      exact ih (process t x).1 (process t x).2

theorem feed_concat (s : IIRState) (ys : List ℚ) (x : ℚ) :
    feed s (ys ++ [x]) = process (feedState s ys) x := by
  rw [feed, List.foldl_append, List.foldl_cons, List.foldl_nil, feed_foldl_fst]

theorem feedState_concat (s : IIRState) (ys : List ℚ) (x : ℚ) :
    feedState s (ys ++ [x]) = (process (feedState s ys) x).1 := by
  rw [feedState, List.foldl_append, List.foldl_cons, List.foldl_nil]
  rfl

theorem feed_snd (s : IIRState) (xs : List ℚ) (h : xs ≠ []) :
    (feed s xs).2 = procOut (feedState s xs) := by
  obtain ⟨ys, x, rfl⟩ := (List.eq_nil_or_concat xs).resolve_left h
  rw [List.concat_eq_append, feed_concat, feedState_concat]
  rfl

theorem sosfilt_nil (sos : List (List ℚ)) : sosfilt sos [] = [] := by
  induction sos with
  | nil => rfl
  | cons sec rest ih =>
      show sosfilt rest (lfilter (sec.take 3) (sec.drop 3) []) = []
      exact ih

theorem procOut_nil (s : IIRState) (h : s.buffer = []) : procOut s = none := by
  rw [procOut, h]
  split
  · split
    · rfl
    · rfl
  · split
    · split
      · rw [sosfilt_nil]; rfl
      · rfl
    · rfl

/-! ### C6: coefficient-type validation at construction -/

/-- An arbitrary concrete output of the external filter design, used by the
closed counterexample (its numbers are never inspected). -/
def aDesign : FilterDesign :=
  { ba_b := [1], ba_a := [1], zpk_z := [], zpk_p := [], zpk_k := 1,
    sos_secs := [[1, 0, 0, 1, 0, 0]] }

/-- Counterexample to C6 as stated: `coef_type = "zpk"` is outside the two
recognized forms, yet construction succeeds (no configuration error is
raised at construction time). -/
theorem filterIIR_zpk_constructs :
    (filterIIRInit "butter" 256 "zpk" 0 aDesign).isOk = true ∧
    ("zpk" : String) ≠ "ba" ∧ ("zpk" : String) ≠ "sos" := by
  refine ⟨rfl, by decide, by decide⟩

/-- C6 (amended): construction raises a configuration error exactly when
`coef_type` is outside the three output forms the external coefficient
source accepts (`"ba"`, `"zpk"`, `"sos"`); the form `"zpk"` — not one of
the two recognized filtering forms — is accepted at construction, and a
filter holding it then returns no value from every `process` call (the
failure is silent, neither raised at construction nor in `process`). -/
theorem filterIIR_coefType_validation (ft : String) (bs : ℕ) (ct : String)
    (ax : ℤ) (d : FilterDesign) (ft2 : String) (ax2 : ℤ) (cf : Coefs)
    (buf : List ℚ) (ml : ℕ) (x : ℚ) :
    ((filterIIRInit ft bs ct ax d).isOk = true ↔ (ct = "ba" ∨ ct = "zpk" ∨ ct = "sos")) ∧
    (process { ftype := ft2, coef_type := "zpk", axis := ax2, coefs := cf,
               buffer := buf, maxlen := ml } x).2 = none := by
  constructor
  · by_cases h1 : ct = "ba"
    · simp [filterIIRInit, iirfilter, h1, Except.isOk, Except.toBool]
    · by_cases h2 : ct = "zpk"
      · simp [filterIIRInit, iirfilter, h1, h2, Except.isOk, Except.toBool]
      · by_cases h3 : ct = "sos"
        · simp [filterIIRInit, iirfilter, h1, h2, h3, Except.isOk, Except.toBool]
        · simp [filterIIRInit, iirfilter, h1, h2, h3, Except.isOk, Except.toBool]
  · simp [process, procOut]

/-! ### C7: bounded history and eviction -/

/-- C7: for a freshly constructed filter of capacity `mlen`, (i) the history
buffer never grows beyond `mlen` samples along any input sequence, and
(ii) once more than `mlen` samples have been fed, the value returned by the
final `process` call equals the value returned after feeding only the last
`mlen` samples to a fresh filter — evicted samples have no influence. -/
theorem iir_buffer_bound_and_eviction (ft ct : String) (ax : ℤ) (cf : Coefs)
    (mlen : ℕ) (xs : List ℚ) :
    (feedState { ftype := ft, coef_type := ct, axis := ax, coefs := cf,
                 buffer := [], maxlen := mlen } xs).buffer.length ≤ mlen ∧
    (mlen < xs.length →
      (feed { ftype := ft, coef_type := ct, axis := ax, coefs := cf,
              buffer := [], maxlen := mlen } xs).2 =
      (feed { ftype := ft, coef_type := ct, axis := ax, coefs := cf,
              buffer := [], maxlen := mlen } (xs.drop (xs.length - mlen))).2) := by
  constructor
  · rw [feedState_eq]
    show (xs.foldl (dequeAppend mlen) []).length ≤ mlen
    rw [foldl_dequeAppend mlen xs [] (by simp)]
    simp only [List.nil_append, List.length_drop]
    omega
  · intro hlen
    have hxs_ne : xs ≠ [] := by
      intro hnil
      rw [hnil] at hlen
      exact Nat.not_lt_zero mlen hlen
    have hbuf : xs.foldl (dequeAppend mlen) [] = xs.drop (xs.length - mlen) := by
      rw [foldl_dequeAppend mlen xs [] (by simp), List.nil_append]
    have hlen' : (xs.drop (xs.length - mlen)).length = mlen := by
      rw [List.length_drop]
      omega
    have hbuf' : (xs.drop (xs.length - mlen)).foldl (dequeAppend mlen) []
        = xs.drop (xs.length - mlen) := by
      rw [foldl_dequeAppend mlen (xs.drop (xs.length - mlen)) [] (by simp), List.nil_append,
        hlen']
      simp
    by_cases hm : mlen = 0
    · subst hm
      rw [Nat.sub_zero, List.drop_length]
      have hR : (feed ⟨ft, ct, ax, cf, [], 0⟩ ([] : List ℚ)).2 = none := rfl
      rw [hR, feed_snd _ xs hxs_ne]
      apply procOut_nil
      rw [feedState_eq]
      show xs.foldl (dequeAppend 0) [] = []
      rw [hbuf, Nat.sub_zero, List.drop_length]
    · have hxs'_ne : xs.drop (xs.length - mlen) ≠ [] := by
        intro hnil
        rw [hnil] at hlen'
        exact hm hlen'.symm
      rw [feed_snd _ xs hxs_ne, feed_snd _ _ hxs'_ne, feedState_eq, feedState_eq]
      show procOut ⟨ft, ct, ax, cf, xs.foldl (dequeAppend mlen) [], mlen⟩ =
        procOut ⟨ft, ct, ax, cf,
          (xs.drop (xs.length - mlen)).foldl (dequeAppend mlen) [], mlen⟩
      rw [hbuf, hbuf']

/-- Witness for C7 at capacity `1`, coefficients `b = a = [1]`, inputs
`[1, 2]`: the hypothesis `1 < 2` holds and the final output matches the
output on just the last sample. -/
theorem iir_buffer_bound_and_eviction_witness :
    (1 : ℕ) < ([(1 : ℚ), 2]).length ∧
    (feed { ftype := "butter", coef_type := "ba", axis := 0, coefs := .ba [1] [1],
            buffer := [], maxlen := 1 } [(1 : ℚ), 2]).2 =
    (feed { ftype := "butter", coef_type := "ba", axis := 0, coefs := .ba [1] [1],
            buffer := [], maxlen := 1 } (([(1 : ℚ), 2]).drop (([(1 : ℚ), 2]).length - 1))).2 :=
  ⟨by decide,
    (iir_buffer_bound_and_eviction "butter" "ba" 0 (.ba [1] [1]) 1 [(1 : ℚ), 2]).2
      (by decide)⟩

end Timeseries
